import Mathlib

/-!
Shallow embedding of the `sharable-pdf-links` PDF viewer.

The repository is a Next.js client app with two viewer variants:

* `src/hooks/usePDFNavigation.ts` — a navigation hook keeping the current
  page in a `page` query parameter (embedded below in namespace `Nav`);
* `src/components/PDFViewer.tsx` — a buffered viewer keeping the current
  page as a `/{pdfName}/{n}` path segment, with an IntersectionObserver
  driving visible-page buffering and current-page resolution (embedded
  below in namespace `Viewer`).

JavaScript numbers that hold page indices are modelled as `ℤ`; a possible
`NaN` (from `parseInt` on a non-numeric string) is modelled as `none` in
`Option ℤ`.  `intersectionRatio` and the zoom scale are modelled as `ℚ`.
`parseInt(s, 10)` is modelled by `parseIntJS` (optional sign, then the
longest leading run of decimal digits; `none` when there is no digit;
leading-whitespace skipping is omitted — no claim involves whitespace).
`Number.prototype.toString()` on integers is modelled by `intToStr`.
-/

/-- The ten decimal digit characters; models the digits of a JS number's
decimal representation. -/
def digitChar (d : Nat) : Char :=
  match d with
  | 0 => '0' | 1 => '1' | 2 => '2' | 3 => '3' | 4 => '4'
  | 5 => '5' | 6 => '6' | 7 => '7' | 8 => '8' | _ => '9'

/-- Decimal digits of `n`, most significant first (fuelled so that the
kernel can evaluate it; `natDigits` supplies sufficient fuel). -/
def natDigitsAux : Nat → Nat → List Char
  | 0, _ => []
  | fuel + 1, n =>
    if n < 10 then [digitChar n]
    else natDigitsAux fuel (n / 10) ++ [digitChar (n % 10)]

/-- Decimal digit string of a natural number, most significant first. -/
def natDigits (n : Nat) : List Char := natDigitsAux (n + 1) n

/-- Numeric value of a digit character. -/
def digitVal (c : Char) : Nat := c.toNat - 48

/-- Value of a big-endian list of decimal digit characters. -/
def digitsVal (l : List Char) : Nat := l.foldl (fun a c => 10 * a + digitVal c) 0

/-- Models `Number.prototype.toString()` for an integral JS number. -/
def intToStr (n : ℤ) : String :=
  if n < 0 then ⟨'-' :: natDigits n.natAbs⟩ else ⟨natDigits n.toNat⟩

/-- Longest leading run of decimal digit characters. -/
def leadingDigits : List Char → List Char
  | [] => []
  | c :: cs => if c.isDigit then c :: leadingDigits cs else []

/-- Models `parseInt(s, 10)` on the character list of `s`: optional sign,
then the longest leading digit run; `none` models `NaN`. -/
def parseIntChars (l : List Char) : Option ℤ :=
  match l with
  | [] => none
  | c :: cs =>
    if c = '-' then
      if leadingDigits cs = [] then none
      else some (-(digitsVal (leadingDigits cs) : ℤ))
    else if c = '+' then
      if leadingDigits cs = [] then none
      else some ((digitsVal (leadingDigits cs) : ℤ))
    else
      if leadingDigits (c :: cs) = [] then none
      else some ((digitsVal (leadingDigits (c :: cs)) : ℤ))

/-- Models `parseInt(s, 10)`; `none` models `NaN`. -/
def parseIntJS (s : String) : Option ℤ := parseIntChars s.data

/-- Models `URLSearchParams`: an association list of query parameters. -/
def setParam (ps : List (String × String)) (k v : String) : List (String × String) :=
  ps.filter (fun p => !(p.1 == k)) ++ [(k, v)]

/-- Models `searchParams.get(k)`. -/
def getParam (ps : List (String × String)) (k : String) : Option String :=
  (ps.find? (fun p => p.1 == k)).map (fun p => p.2)

/-- The string actually handed to `parseInt` in the hook:
`searchParams.get('page') || '1'` (missing or empty parameter falls back
to `"1"`). -/
def pageParamString (ps : List (String × String)) : String :=
  match getParam ps "page" with
  | none => "1"
  | some s => if s = "" then "1" else s

/-- Models `parseInt(searchParams.get('page') || '1', 10)` from
`usePDFNavigation.ts` lines 12 and 54. -/
def readPageParam (ps : List (String × String)) : Option ℤ :=
  parseIntJS (pageParamString ps)

/-- Models `page && page[0] ? parseInt(page[0], 10) : 1` from
`app/[pdfName]/[[...page]]/page.tsx` line 19: `page` is the optional
catch-all segment list; a missing list, an empty list and an empty first
segment are all falsy and default to 1. -/
def readPathPage (page : Option (List String)) : Option ℤ :=
  match page with
  | some (s :: _) => if s = "" then some 1 else parseIntJS s
  | _ => some 1

namespace Nav

/-- State of `usePDFNavigation`: the stored current page (`none` models a
`NaN` having been stored), the document's total page count (`none` while
the document has not loaded) and the URL's query parameters. -/
structure State where
  currentPage : Option ℤ
  totalPages : Option ℤ
  params : List (String × String)
deriving DecidableEq

/-- Models `Math.max(1, x)` where `x` may be `NaN` (`Math.max(1, NaN) = NaN`). -/
def jsMax1 : Option ℤ → Option ℤ
  | some v => some (max 1 v)
  | none => none

/-- JS strict inequality `a !== b` where either side may be `NaN`
(`NaN !== x` is true for every `x`). -/
def jsNe : Option ℤ → Option ℤ → Bool
  | some a, some b => a != b
  | _, _ => true

/-- Initial hook state: `useState(Math.max(1, initialPage))` with
`initialPage = parseInt(searchParams.get('page') || '1', 10)`
(`usePDFNavigation.ts` lines 12–13). -/
def initialState (ps : List (String × String)) : State :=
  { currentPage := jsMax1 (readPageParam ps), totalPages := none, params := ps }

/-- The URL write of `updatePage`: `params.set('page', newPage.toString())`
followed by `router.push` of the same pathname with those parameters
(`usePDFNavigation.ts` lines 23–25). -/
def writePage (ps : List (String × String)) (n : ℤ) : List (String × String) :=
  setParam ps "page" (intToStr n)

/-- The hook's `updatePage` (`usePDFNavigation.ts` lines 16–26): rejects `newPage`
outside `[1, totalPages]` only when `totalPages` is known, else stores the
page and writes it into the URL. -/
def updatePage (s : State) (newPage : ℤ) : State :=
  match s.totalPages with
  | some t =>
    if newPage < 1 ∨ newPage > t then s
    else { s with currentPage := some newPage, params := writePage s.params newPage }
  | none => { s with currentPage := some newPage, params := writePage s.params newPage }

/-- The hook's `nextPage` (`usePDFNavigation.ts` lines 29–33): guarded by
`totalPages && currentPage < totalPages` (false when `totalPages` is null
or `currentPage` is `NaN`). -/
def nextPage (s : State) : State :=
  match s.totalPages, s.currentPage with
  | some t, some c => if c < t then updatePage s (c + 1) else s
  | _, _ => s

/-- The hook's `previousPage` (`usePDFNavigation.ts` lines 36–40). -/
def previousPage (s : State) : State :=
  match s.currentPage with
  | some c => if 1 < c then updatePage s (c - 1) else s
  | none => s

/-- The hook's `goToPage` (`usePDFNavigation.ts` lines 43–50): clamps below at 1,
and above at `totalPages` when that is known. -/
def goToPage (s : State) (page : ℤ) : State :=
  match s.totalPages with
  | some t => updatePage s (min (max 1 page) t)
  | none => updatePage s (max 1 page)

/-- The URL-sync effect (`usePDFNavigation.ts` lines 53–58): on a
`searchParams` change (browser back/forward), stores the parsed URL page
verbatim whenever it differs (`!==`) from the stored page — with no range
or numeric validation. -/
def syncEffect (s : State) : State :=
  if jsNe (readPageParam s.params) s.currentPage then
    { s with currentPage := readPageParam s.params }
  else s

/-- The validation effect (`usePDFNavigation.ts` lines 61–65): when
`totalPages` (re)loads, clamps the stored page down to `totalPages` if it
exceeds it. -/
def validateEffect (s : State) : State :=
  match s.totalPages, s.currentPage with
  | some t, some c => if c > t then updatePage s t else s
  | _, _ => s

/-- The document-load event supplying `totalPages` to the hook. -/
def setTotalPages (s : State) (t : ℤ) : State := { s with totalPages := some t }

/-- Models `canGoNext: totalPages ? currentPage < totalPages : true`
(`usePDFNavigation.ts` line 72). -/
def canGoNext (s : State) : Bool :=
  match s.totalPages with
  | some t => match s.currentPage with
    | some c => c < t
    | none => false
  | none => true

/-- Models `canGoPrevious: currentPage > 1` (`usePDFNavigation.ts` line 73). -/
def canGoPrevious (s : State) : Bool :=
  match s.currentPage with
  | some c => 1 < c
  | none => false

end Nav

/-- Zoom modes of `PDFViewer.tsx` line 36. -/
inductive ZoomMode
  | auto
  | fitWidth
  | fitPage
  | custom
deriving DecidableEq

namespace Viewer

/-- The integer for-loop body shared by the buffer computations: the list
`lo, lo+1, …, hi` (empty when `hi < lo`). -/
def bufferedList (lo hi : ℤ) : List ℤ :=
  (List.range (hi + 1 - lo).toNat).map (fun (k : ℕ) => lo + (k : ℤ))

/-- The buffered-set loop of `PDFViewer.tsx` (`goToPage` lines 69–72 with
radius 2, `onDocumentLoadSuccess` lines 137–141 and the observer callback
lines 252–259 with radius 3):
`for (i = max(1, focus - r); i <= min(totalPages, focus + r); i++) add(i)`. -/
def computeBufferedSet (focusPage totalPages bufferRadius : ℤ) : List ℤ :=
  bufferedList (max 1 (focusPage - bufferRadius)) (min totalPages (focusPage + bufferRadius))

/-- State of the buffered viewer (`PDFViewer.tsx` lines 33–49): the loaded
page count, current page, rendered-page set, URL history of page segments
(last entry is the current URL), the two suppression flags, and the zoom
state.  Fields that no claim touches (loading flag, error banner, page
width/height, search text) are omitted. -/
structure State where
  numPages : Option ℤ
  currentPage : ℤ
  visiblePages : Finset ℤ
  history : List ℤ
  isScrollingToPage : Bool
  isInitialLoad : Bool
  scale : ℚ
  zoomMode : ZoomMode

/-- Models `router.push` of the page route: appends a history entry holding the
page segment. -/
def pushUrl (h : List ℤ) (n : ℤ) : List ℤ := h ++ [n]

/-- Models `router.replace` of the page route: replaces the current history entry. -/
def replaceUrl (h : List ℤ) (n : ℤ) : List ℤ := h.dropLast ++ [n]

/-- The viewer's `scrollToPage` (`PDFViewer.tsx` lines 52–62): when the target page
element is mounted, starts a smooth scroll and raises the
navigation-intent flag (the 1500 ms timeout that clears it is modelled by
`settleTimer`). -/
def scrollToPage (s : State) (pageElementExists : Bool) : State :=
  if pageElementExists then { s with isScrollingToPage := true } else s

/-- The timeout body inside `scrollToPage` (lines 57–60), firing after the
settle delay: clears the navigation-intent flag and the initial-load flag. -/
def settleTimer (s : State) : State :=
  { s with isScrollingToPage := false, isInitialLoad := false }

/-- The viewer's `goToPage` (`PDFViewer.tsx` lines 65–82): guarded by
`numPages && pageNum >= 1 && pageNum <= numPages`; replaces the rendered
set by the radius-2 buffer, sets the current page, starts the programmatic
scroll and pushes the new URL. -/
def goToPage (s : State) (pageNum : ℤ) (pageElementExists : Bool) : State :=
  match s.numPages with
  | some t =>
    if 1 ≤ pageNum ∧ pageNum ≤ t then
      let s1 := { s with
        visiblePages := (computeBufferedSet pageNum t 2).toFinset,
        currentPage := pageNum }
      let s2 := scrollToPage s1 pageElementExists
      { s2 with history := pushUrl s2.history pageNum }
    else s
  | none => s

/-- The viewer's `nextPage` (`PDFViewer.tsx` lines 84–88). -/
def nextPage (s : State) (pageElementExists : Bool) : State :=
  match s.numPages with
  | some t => if s.currentPage < t then goToPage s (s.currentPage + 1) pageElementExists else s
  | none => s

/-- The viewer's `previousPage` (`PDFViewer.tsx` lines 90–94). -/
def previousPage (s : State) (pageElementExists : Bool) : State :=
  if 1 < s.currentPage then goToPage s (s.currentPage - 1) pageElementExists else s

/-- One IntersectionObserver entry: the page number carried by the
`data-page-number` attribute, whether the element intersects the viewport,
and its intersection ratio (a JS float in `[0,1]`, modelled as `ℚ`). -/
structure Obs where
  page : ℤ
  isIntersecting : Bool
  ratioQ : ℚ
deriving DecidableEq

/-- The per-entry body of the observer callback (`PDFViewer.tsx` lines
247–268), with `c0` the `currentPage` captured by the callback's closure
(stale for the whole batch): an intersecting entry unions the radius-3
buffer around its page into the rendered set, and additionally — when its
ratio exceeds 0.5 and its page differs from the captured current page —
sets the current page and replaces the URL. -/
def observerStep (t c0 : ℤ) (s : State) (e : Obs) : State :=
  if e.isIntersecting then
    let s1 := { s with
      visiblePages := s.visiblePages ∪ (computeBufferedSet e.page t 3).toFinset }
    if 1 / 2 < e.ratioQ ∧ e.page ≠ c0 then
      { s1 with currentPage := e.page, history := replaceUrl s1.history e.page }
    else s1
  else s

/-- The observer callback (`PDFViewer.tsx` lines 242–269): absent while
`numPages` is null (the effect returns early, line 240); returns without
touching state while the navigation-intent flag or the initial-load flag
is set (line 245); otherwise folds `observerStep` over the batch. -/
def observerCallback (s : State) (entries : List Obs) : State :=
  match s.numPages with
  | none => s
  | some t =>
    if s.isScrollingToPage ∨ s.isInitialLoad then s
    else entries.foldl (observerStep t s.currentPage) s

/-- The viewer's `zoomIn` (`PDFViewer.tsx` lines 203–206). -/
def zoomIn (s : State) : State :=
  { s with zoomMode := ZoomMode.custom, scale := min (s.scale + 1 / 5) 3 }

/-- The viewer's `zoomOut` (`PDFViewer.tsx` lines 208–211). -/
def zoomOut (s : State) : State :=
  { s with zoomMode := ZoomMode.custom, scale := max (s.scale - 1 / 5) (1 / 2) }

/-- The viewer's `resetZoom` (`PDFViewer.tsx` lines 213–216). -/
def resetZoom (s : State) : State :=
  { s with zoomMode := ZoomMode.auto, scale := 1 }

end Viewer

/-- Does `pat` occur at the head of `text`? -/
def startsWithList : List Char → List Char → Bool
  | [], _ => true
  | _ :: _, [] => false
  | p :: ps, c :: cs => p == c && startsWithList ps cs

/-- Models `text.split(sep)` for a non-empty string separator, fuelled on the
text length so the kernel can evaluate it: JS `String.prototype.split`
scans left to right and cuts at each non-overlapping occurrence of `sep`. -/
def jsSplitAux (sep : List Char) : Nat → List Char → List (List Char)
  | 0, _ => [[]]
  | fuel + 1, text =>
    match text with
    | [] => [[]]
    | c :: rest =>
      if startsWithList sep (c :: rest) then
        [] :: jsSplitAux sep fuel ((c :: rest).drop sep.length)
      else
        match jsSplitAux sep fuel rest with
        | [] => [[c]]
        | h :: tl => (c :: h) :: tl

/-- Models `text.split(sep)` (JS semantics; an empty separator splits into
single characters, a case `handleSearch` never reaches). -/
def jsSplit (sep text : List Char) : List (List Char) :=
  if sep = [] then text.map (fun c => [c])
  else jsSplitAux sep (text.length + 1) text

/-- Specification-side counter: the number of non-overlapping occurrences
of `pat` in `text`, scanning left to right (0 for an empty pattern). -/
def countOccAux (pat : List Char) : Nat → List Char → Nat
  | 0, _ => 0
  | fuel + 1, text =>
    match text with
    | [] => 0
    | c :: rest =>
      if startsWithList pat (c :: rest) then
        1 + countOccAux pat fuel ((c :: rest).drop pat.length)
      else countOccAux pat fuel rest

/-- Number of non-overlapping occurrences of `pat` in `text`. -/
def countOcc (pat text : List Char) : Nat :=
  if pat = [] then 0 else countOccAux pat (text.length + 1) text

/-- Models `s.toLowerCase()` on the character list. -/
def toLowerL (s : String) : List Char := s.data.map Char.toLower

/-- The viewer's `handleSearch` (`PDFViewer.tsx` lines 164–200), as a function of the
query and the per-page extracted texts (each page's `textContent.items`
joined by spaces): a falsy (empty) query reports 0; otherwise the counts
`pageText.toLowerCase().split(query.toLowerCase()).length - 1` are summed
over all pages. -/
def handleSearch (pages : List String) (query : String) : Nat :=
  if query = "" then 0
  else (pages.map (fun p => (jsSplit (toLowerL query) (toLowerL p)).length - 1)).sum

/-- Specification-side total: the sum over pages of the non-overlapping
case-insensitive occurrence counts of the query. -/
def specTotalMatches (pages : List String) (query : String) : Nat :=
  (pages.map (fun p => countOcc (toLowerL query) (toLowerL p))).sum

/-! ### Decimal round-trip lemmas -/

theorem digitChar_isDigit (d : Nat) : (digitChar d).isDigit = true := by
  unfold digitChar
  split <;> decide

theorem digitVal_digitChar (d : Nat) (h : d < 10) : digitVal (digitChar d) = d := by
  interval_cases d <;> rfl

theorem natDigitsAux_congr (n : Nat) :
    ∀ f₁ f₂ : Nat, n < f₁ → n < f₂ → natDigitsAux f₁ n = natDigitsAux f₂ n := by
  induction n using Nat.strong_induction_on with
  | _ n ih =>
    intro f₁ f₂ h₁ h₂
    cases f₁ with
    | zero => omega
    | succ f₁ =>
      cases f₂ with
      | zero => omega
      | succ f₂ =>
        simp only [natDigitsAux]
        split
        · rfl
        · have hdiv : n / 10 < n := Nat.div_lt_self (by omega) (by norm_num)
          rw [ih (n / 10) hdiv f₁ f₂ (by omega) (by omega)]

theorem natDigits_unfold (n : Nat) :
    natDigits n = if n < 10 then [digitChar n] else natDigits (n / 10) ++ [digitChar (n % 10)] := by
  by_cases h : n < 10
  · rw [if_pos h]
    unfold natDigits
    simp only [natDigitsAux]
    rw [if_pos h]
  · rw [if_neg h]
    have h1 : natDigits n = natDigitsAux n (n / 10) ++ [digitChar (n % 10)] := by
      unfold natDigits
      simp only [natDigitsAux]
      rw [if_neg h]
    rw [h1]
    have hdiv : n / 10 < n := Nat.div_lt_self (by omega) (by norm_num)
    unfold natDigits
    rw [natDigitsAux_congr (n / 10) n (n / 10 + 1) hdiv (by omega)]

theorem natDigits_ne_nil (n : Nat) : natDigits n ≠ [] := by
  rw [natDigits_unfold]
  split <;> simp

theorem natDigits_all_digit (n : Nat) : ∀ c ∈ natDigits n, c.isDigit = true := by
  induction n using Nat.strong_induction_on with
  | _ n ih =>
    rw [natDigits_unfold]
    split
    · intro c hc
      simp only [List.mem_singleton] at hc
      subst hc
      exact digitChar_isDigit n
    · intro c hc
      rcases List.mem_append.mp hc with h | h
      · exact ih (n / 10) (Nat.div_lt_self (by omega) (by norm_num)) c h
      · simp only [List.mem_singleton] at h
        subst h
        exact digitChar_isDigit (n % 10)

theorem digitsVal_append_singleton (l : List Char) (c : Char) :
    digitsVal (l ++ [c]) = 10 * digitsVal l + digitVal c := by
  unfold digitsVal
  rw [List.foldl_append]
  rfl

theorem digitsVal_natDigits (n : Nat) : digitsVal (natDigits n) = n := by
  induction n using Nat.strong_induction_on with
  | _ n ih =>
    rw [natDigits_unfold]
    split
    · show digitsVal [digitChar n] = n
      simp only [digitsVal, List.foldl_cons, List.foldl_nil, Nat.mul_zero, Nat.zero_add]
      exact digitVal_digitChar n (by omega)
    · rw [digitsVal_append_singleton,
        ih (n / 10) (Nat.div_lt_self (by omega) (by norm_num)),
        digitVal_digitChar (n % 10) (Nat.mod_lt n (by norm_num))]
      omega

theorem isDigit_ne_minus {c : Char} (h : c.isDigit = true) : c ≠ '-' := by
  intro hc
  subst hc
  exact absurd h (by decide)

theorem isDigit_ne_plus {c : Char} (h : c.isDigit = true) : c ≠ '+' := by
  intro hc
  subst hc
  exact absurd h (by decide)

theorem leadingDigits_of_all {l : List Char} (h : ∀ c ∈ l, c.isDigit = true) :
    leadingDigits l = l := by
  induction l with
  | nil => rfl
  | cons c cs ih =>
    simp only [leadingDigits]
    rw [if_pos (h c (by simp)), ih (fun d hd => h d (by simp [hd]))]

theorem parseIntChars_digits {l : List Char} (hne : l ≠ [])
    (hall : ∀ c ∈ l, c.isDigit = true) :
    parseIntChars l = some ((digitsVal l : ℤ)) := by
  cases l with
  | nil => exact absurd rfl hne
  | cons c cs =>
    have hc : c.isDigit = true := hall c (by simp)
    simp only [parseIntChars]
    rw [if_neg (isDigit_ne_minus hc), if_neg (isDigit_ne_plus hc),
      leadingDigits_of_all hall]
    simp

/-- Round trip of the decimal string model: parsing the decimal
representation of a nonnegative integer recovers it. -/
theorem parseIntJS_intToStr {n : ℤ} (h : 0 ≤ n) : parseIntJS (intToStr n) = some n := by
  unfold parseIntJS intToStr
  rw [if_neg (by omega)]
  show parseIntChars (natDigits n.toNat) = some n
  rw [parseIntChars_digits (natDigits_ne_nil n.toNat) (natDigits_all_digit n.toNat),
    digitsVal_natDigits]
  congr 1
  omega

theorem intToStr_ne_empty (n : ℤ) : intToStr n ≠ "" := by
  unfold intToStr
  split
  · intro hc
    have : ('-' :: natDigits n.natAbs) = ([] : List Char) := congrArg String.data hc
    simp at this
  · intro hc
    have : natDigits n.toNat = ([] : List Char) := congrArg String.data hc
    exact natDigits_ne_nil n.toNat this

theorem getParam_setParam (ps : List (String × String)) (k v : String) :
    getParam (setParam ps k v) k = some v := by
  unfold getParam setParam
  induction ps with
  | nil => simp
  | cons p ps ih =>
    by_cases hk : p.1 = k
    · simp [List.filter_cons, hk, ih]
    · simp [List.filter_cons, List.find?_cons, hk, ih]

theorem readPageParam_writePage (ps : List (String × String)) (n : ℤ) :
    readPageParam (Nav.writePage ps n) = parseIntJS (intToStr n) := by
  unfold readPageParam pageParamString Nav.writePage
  rw [getParam_setParam]
  show parseIntJS (if intToStr n = "" then "1" else intToStr n) = parseIntJS (intToStr n)
  rw [if_neg (intToStr_ne_empty n)]

/-- C1: URL round-trip — for every page number `n` in `[1, totalPages]`,
writing `n` into the URL (as the `page` query parameter in the hook
variant, or as the `/{pdfName}/{n}` path segment in the buffered-viewer
variant, the latter in push mode via `router.push` and in replace mode via
`router.replace`) and parsing the page back yields exactly `n`. -/
theorem c1_url_round_trip (n totalPages : ℤ) (h1 : 1 ≤ n) (h2 : n ≤ totalPages) :
    (∀ ps : List (String × String), readPageParam (Nav.writePage ps n) = some n) ∧
    readPathPage (some [intToStr n]) = some n ∧
    (∀ h : List ℤ,
      (Viewer.pushUrl h n).getLast? = some n ∧ (Viewer.replaceUrl h n).getLast? = some n) := by
  refine ⟨fun ps => ?_, ?_, fun h => ⟨?_, ?_⟩⟩
  · rw [readPageParam_writePage]
    exact parseIntJS_intToStr (by omega)
  · show (if intToStr n = "" then some 1 else parseIntJS (intToStr n)) = some n
    rw [if_neg (intToStr_ne_empty n)]
    exact parseIntJS_intToStr (by omega)
  · exact List.getLast?_concat h
  · exact List.getLast?_concat h.dropLast

/-- Witness for C1 at `n = 7`, `totalPages = 10`. -/
theorem c1_witness :
    (1 : ℤ) ≤ 7 ∧ (7 : ℤ) ≤ 10 ∧
    readPageParam (Nav.writePage [] 7) = some 7 ∧
    readPathPage (some [intToStr 7]) = some 7 := by
  have h := c1_url_round_trip 7 10 (by norm_num) (by norm_num)
  exact ⟨by norm_num, by norm_num, h.1 [], h.2.1⟩

/-- C9 counterexample: a present but non-numeric `page` value parses to
`NaN` (modelled `none`), not to the claimed default 1 — in the hook's
query-parameter reader and in the path-segment reader alike. -/
theorem c9_counterexample :
    readPageParam [("page", "abc")] ≠ some 1 ∧ readPageParam [("page", "abc")] = none ∧
    readPathPage (some ["abc"]) ≠ some 1 ∧ readPathPage (some ["abc"]) = none := by
  refine ⟨?_, ?_, ?_, ?_⟩ <;> decide

/-- C9 amended: parsing the page from the URL returns the encoded integer
when the parameter/segment is present and numeric, and returns 1 when the
parameter/segment is missing or empty; a present non-numeric value,
however, parses to `NaN` (modelled `none`), not to 1. -/
theorem c9_amended :
    (∀ n : ℤ, 0 ≤ n → parseIntJS (intToStr n) = some n) ∧
    (∀ ps, getParam ps "page" = none → readPageParam ps = some 1) ∧
    (∀ ps s, getParam ps "page" = some s → s ≠ "" → readPageParam ps = parseIntJS s) ∧
    readPathPage none = some 1 ∧
    readPathPage (some []) = some 1 ∧
    readPathPage (some [""]) = some 1 ∧
    (∀ s : String, s ≠ "" → parseIntJS s = none →
      readPageParam [("page", s)] = parseIntJS s) := by
  refine ⟨fun n hn => parseIntJS_intToStr hn, fun ps h => ?_, fun ps s h hs => ?_,
    rfl, rfl, by decide, fun s hs _ => ?_⟩
  · unfold readPageParam pageParamString
    rw [h]
    decide
  · unfold readPageParam pageParamString
    rw [h]
    show parseIntJS (if s = "" then "1" else s) = parseIntJS s
    rw [if_neg hs]
  · unfold readPageParam pageParamString getParam
    simp only [List.find?_cons, show (("page", s).1 == "page") = true by simp]
    show parseIntJS (if s = "" then "1" else s) = parseIntJS s
    rw [if_neg hs]

/-- Witness for C9 amended, at the empty parameter list, the written page
7 and the non-numeric value `"abc"`. -/
theorem c9_witness :
    parseIntJS (intToStr 7) = some 7 ∧
    readPageParam [] = some 1 ∧
    readPageParam [("page", "abc")] = parseIntJS "abc" := by
  have h := c9_amended
  exact ⟨h.1 7 (by norm_num), h.2.1 [] rfl, h.2.2.2.2.2.2 "abc" (by decide) (by decide)⟩

/-! ### Buffered-set lemmas -/

theorem mem_bufferedList (lo hi x : ℤ) :
    x ∈ Viewer.bufferedList lo hi ↔ lo ≤ x ∧ x ≤ hi := by
  unfold Viewer.bufferedList
  simp only [List.mem_map, List.mem_range]
  constructor
  · rintro ⟨k, hk, rfl⟩
    omega
  · rintro ⟨hx1, hx2⟩
    exact ⟨(x - lo).toNat, by omega, by omega⟩

theorem length_bufferedList (lo hi : ℤ) (h : lo ≤ hi) :
    ((Viewer.bufferedList lo hi).length : ℤ) = hi - lo + 1 := by
  unfold Viewer.bufferedList
  simp only [List.length_map, List.length_range]
  omega

theorem nodup_bufferedList (lo hi : ℤ) : (Viewer.bufferedList lo hi).Nodup := by
  unfold Viewer.bufferedList
  exact (List.nodup_range _).map (fun a b hab => by omega)

/-- C2: for every `focusPage ∈ [1, totalPages]` and `bufferRadius ≥ 0`,
the buffered-set computation returns exactly the integers of
`[max(1, focusPage − bufferRadius), min(totalPages, focusPage + bufferRadius)]`,
without duplicates; its cardinality is
`min(totalPages, focusPage + bufferRadius) − max(1, focusPage − bufferRadius) + 1`
and every element lies in `[1, totalPages]`. -/
theorem c2_buffered_set (focusPage totalPages bufferRadius : ℤ)
    (h1 : 1 ≤ focusPage) (h2 : focusPage ≤ totalPages) (hb : 0 ≤ bufferRadius) :
    (∀ x : ℤ, x ∈ Viewer.computeBufferedSet focusPage totalPages bufferRadius ↔
      max 1 (focusPage - bufferRadius) ≤ x ∧ x ≤ min totalPages (focusPage + bufferRadius)) ∧
    ((Viewer.computeBufferedSet focusPage totalPages bufferRadius).length : ℤ) =
      min totalPages (focusPage + bufferRadius) - max 1 (focusPage - bufferRadius) + 1 ∧
    (Viewer.computeBufferedSet focusPage totalPages bufferRadius).Nodup ∧
    (∀ x ∈ Viewer.computeBufferedSet focusPage totalPages bufferRadius,
      1 ≤ x ∧ x ≤ totalPages) := by
  refine ⟨fun x => mem_bufferedList _ _ x, ?_, nodup_bufferedList _ _, fun x hx => ?_⟩
  · exact length_bufferedList _ _ (by omega)
  · have := (mem_bufferedList _ _ x).mp hx
    omega

/-- Witness for C2 at `focusPage = 2`, `totalPages = 5`, `bufferRadius = 3`:
the window is `{1, …, 5}`, of size 5. -/
theorem c2_witness :
    ((3 : ℤ) ∈ Viewer.computeBufferedSet 2 5 3 ↔
      max 1 (2 - 3 : ℤ) ≤ 3 ∧ (3 : ℤ) ≤ min 5 (2 + 3 : ℤ)) ∧
    ((Viewer.computeBufferedSet 2 5 3).length : ℤ) =
      min 5 (2 + 3 : ℤ) - max 1 (2 - 3 : ℤ) + 1 := by
  have h := c2_buffered_set 2 5 3 (by norm_num) (by norm_num) (by norm_num)
  exact ⟨h.1 3, h.2.1⟩

/-- C3 counterexample: the hook's `goToPage` is not a no-op on an
out-of-range target — with `totalPages = 10` and current page 5,
`goToPage(11)` clamps to 10 and navigates: the stored page and the URL
both change. -/
theorem c3_counterexample :
    (Nav.goToPage ⟨some 5, some 10, [("page", "5")]⟩ 11).currentPage = some 10 ∧
    (Nav.goToPage ⟨some 5, some 10, [("page", "5")]⟩ 11).currentPage ≠ some 5 ∧
    (Nav.goToPage ⟨some 5, some 10, [("page", "5")]⟩ 11).params ≠ [("page", "5")] := by
  refine ⟨?_, ?_, ?_⟩ <;> decide

/-- C3 amended: in the buffered viewer, `goToPage(n)` with `n` outside
`[1, totalPages]` (or with `totalPages` still unknown) leaves the state —
current page, rendered set and URL — unchanged and surfaces no error; the
hook variant's `goToPage`, however, clamps `n` into `[1, totalPages]` and
navigates to the clamped page, changing both the stored page and the URL. -/
theorem c3_amended :
    (∀ (s : Viewer.State) (t n : ℤ) (ex : Bool), s.numPages = some t →
      (n < 1 ∨ t < n) → Viewer.goToPage s n ex = s) ∧
    (∀ (s : Viewer.State) (n : ℤ) (ex : Bool), s.numPages = none →
      Viewer.goToPage s n ex = s) ∧
    (∀ (s : Nav.State) (t p : ℤ), s.totalPages = some t → 1 ≤ t →
      (Nav.goToPage s p).currentPage = some (min (max 1 p) t) ∧
      (Nav.goToPage s p).params = Nav.writePage s.params (min (max 1 p) t)) := by
  refine ⟨fun s t n ex ht hn => ?_, fun s n ex ht => ?_, fun s t p ht h1 => ?_⟩
  · simp only [Viewer.goToPage, ht]
    rw [if_neg (by omega)]
  · simp only [Viewer.goToPage, ht]
  · simp only [Nav.goToPage, Nav.updatePage, ht]
    rw [if_neg (by omega)]
    exact ⟨rfl, rfl⟩

/-- Witness for C3 amended: the buffered viewer ignores `goToPage 11` on a
10-page document, while the hook clamps 11 to 10. -/
theorem c3_witness :
    Viewer.goToPage ⟨some 10, 5, ∅, [5], false, false, 1, ZoomMode.auto⟩ 11 true =
      ⟨some 10, 5, ∅, [5], false, false, 1, ZoomMode.auto⟩ ∧
    (Nav.goToPage ⟨some 5, some 10, []⟩ 11).currentPage = some (min (max 1 11) 10) := by
  have h := c3_amended
  exact ⟨h.1 ⟨some 10, 5, ∅, [5], false, false, 1, ZoomMode.auto⟩ 10 11 true rfl
      (by norm_num),
    (h.2.2 ⟨some 5, some 10, []⟩ 10 11 rfl (by norm_num)).1⟩

/-! ### Current-page resolver lemmas -/

/-- An observation that makes the callback set the current page: it
intersects, its ratio exceeds 0.5, and its page differs from the current
page `c0` captured by the callback's closure. -/
def obsQualifies (c0 : ℤ) (e : Viewer.Obs) : Bool :=
  e.isIntersecting && decide ((1 : ℚ) / 2 < e.ratioQ) && decide (e.page ≠ c0)

theorem observerStep_currentPage_of_qualifies {c0 : ℤ} {e : Viewer.Obs}
    (hq : obsQualifies c0 e = true) (t : ℤ) (s : Viewer.State) :
    (Viewer.observerStep t c0 s e).currentPage = e.page := by
  unfold obsQualifies at hq
  simp only [Bool.and_eq_true, decide_eq_true_eq] at hq
  unfold Viewer.observerStep
  rw [if_pos hq.1.1, if_pos ⟨hq.1.2, hq.2⟩]

theorem observerStep_currentPage_of_not_qualifies {c0 : ℤ} {e : Viewer.Obs}
    (hq : ¬obsQualifies c0 e = true) (t : ℤ) (s : Viewer.State) :
    (Viewer.observerStep t c0 s e).currentPage = s.currentPage := by
  unfold Viewer.observerStep
  by_cases hi : e.isIntersecting = true
  · rw [if_pos hi]
    have hcond : ¬((1 : ℚ) / 2 < e.ratioQ ∧ e.page ≠ c0) := by
      rintro ⟨h1, h2⟩
      refine hq ?_
      simp only [obsQualifies, hi, Bool.true_and, Bool.and_eq_true, decide_eq_true_eq]
      exact ⟨h1, h2⟩
    rw [if_neg hcond]
  · rw [if_neg hi]

theorem foldl_observerStep_currentPage (t c0 : ℤ) (entries : List Viewer.Obs) :
    ∀ s : Viewer.State,
      (entries.foldl (Viewer.observerStep t c0) s).currentPage =
        (((entries.filter (obsQualifies c0)).getLast?).map Viewer.Obs.page).getD
          s.currentPage := by
  induction entries with
  | nil => intro s; rfl
  | cons e rest ih =>
    intro s
    rw [List.foldl_cons, List.filter_cons]
    by_cases hq : obsQualifies c0 e = true
    · rw [if_pos hq, ih (Viewer.observerStep t c0 s e),
        observerStep_currentPage_of_qualifies hq]
      cases hfr : rest.filter (obsQualifies c0) with
      | nil => rfl
      | cons f fs =>
        rw [List.getLast?_cons_cons]
        cases hgl : (f :: fs).getLast? with
        | none =>
          have := List.getLast?_isSome (l := f :: fs)
          rw [hgl] at this
          simp at this
        | some g => rfl
    · rw [if_neg hq, ih (Viewer.observerStep t c0 s e),
        observerStep_currentPage_of_not_qualifies hq]

/-- C4 counterexample: in the batch `{page 2, ratio 0.6}, {page 3, ratio
0.55}` the highest ratio belongs to page 2, yet the callback resolves the
current page to 3 — each entry above the threshold overwrites the current
page in batch order, so the winner is the last qualifying entry, not the
one with the highest `intersectionRatio`. -/
theorem c4_counterexample :
    (Viewer.observerCallback ⟨some 10, 1, ∅, [1], false, false, 1, ZoomMode.auto⟩
      [⟨2, true, 3 / 5⟩, ⟨3, true, 11 / 20⟩]).currentPage = 3 ∧
    (11 / 20 : ℚ) < 3 / 5 ∧ (3 : ℤ) ≠ 2 := by
  refine ⟨?_, by norm_num, by norm_num⟩
  norm_num [Viewer.observerCallback, Viewer.observerStep, List.foldl]

/-- C4 amended: in each batch, the current page becomes the page of the
last observation that intersects, has `intersectionRatio > 0.5` and names
a page different from the prior current page (each such observation
overwrites the current page in batch order — not necessarily the one with
the highest ratio); if no observation's ratio exceeds 0.5 the current page
keeps its prior value; and the spec's example `{page 2, ratio 0.6},
{page 3, ratio 0.4}` still resolves the current page to 2. -/
theorem c4_amended :
    (∀ (s : Viewer.State) (t : ℤ) (entries : List Viewer.Obs),
      s.numPages = some t → s.isScrollingToPage = false → s.isInitialLoad = false →
      (Viewer.observerCallback s entries).currentPage =
        (((entries.filter (obsQualifies s.currentPage)).getLast?).map
          Viewer.Obs.page).getD s.currentPage) ∧
    (Viewer.observerCallback ⟨some 10, 1, ∅, [1], false, false, 1, ZoomMode.auto⟩
      [⟨2, true, 3 / 5⟩, ⟨3, true, 2 / 5⟩]).currentPage = 2 ∧
    (∀ (s : Viewer.State) (entries : List Viewer.Obs),
      (∀ e ∈ entries, e.ratioQ < 1 / 2) →
      (Viewer.observerCallback s entries).currentPage = s.currentPage) := by
  refine ⟨fun s t entries ht h1 h2 => ?_,
    by norm_num [Viewer.observerCallback, Viewer.observerStep, List.foldl],
    fun s entries hall => ?_⟩
  · simp only [Viewer.observerCallback, ht]
    rw [if_neg (by simp [h1, h2])]
    exact foldl_observerStep_currentPage t s.currentPage entries s
  · cases ht : s.numPages with
    | none => simp only [Viewer.observerCallback, ht]
    | some t =>
      by_cases hf : s.isScrollingToPage = true ∨ s.isInitialLoad = true
      · simp only [Viewer.observerCallback, ht, if_pos hf]
      · simp only [Viewer.observerCallback, ht, if_neg hf]
        rw [foldl_observerStep_currentPage t s.currentPage entries s]
        have hfil : entries.filter (obsQualifies s.currentPage) = [] := by
          rw [List.filter_eq_nil_iff]
          intro e he
          have hr := hall e he
          simp only [obsQualifies, Bool.and_eq_true, decide_eq_true_eq]
          rintro ⟨⟨-, hgt⟩, -⟩
          linarith
        rw [hfil]
        rfl

/-- Witness for C4 amended: the characterization applied to the batch of
the counterexample state, and the below-threshold batch `{page 4, ratio
0.3}` leaving page 1 current. -/
theorem c4_witness :
    (Viewer.observerCallback ⟨some 10, 1, ∅, [1], false, false, 1, ZoomMode.auto⟩
      [⟨2, true, 3 / 5⟩, ⟨3, true, 11 / 20⟩]).currentPage =
      ((([⟨2, true, 3 / 5⟩, ⟨3, true, 11 / 20⟩].filter
        (obsQualifies (1 : ℤ))).getLast?).map Viewer.Obs.page).getD 1 ∧
    (Viewer.observerCallback ⟨some 10, 1, ∅, [1], false, false, 1, ZoomMode.auto⟩
      [⟨4, true, 3 / 10⟩]).currentPage = 1 := by
  have h := c4_amended
  exact ⟨h.1 ⟨some 10, 1, ∅, [1], false, false, 1, ZoomMode.auto⟩ 10
      [⟨2, true, 3 / 5⟩, ⟨3, true, 11 / 20⟩] rfl rfl rfl,
    h.2.2 ⟨some 10, 1, ∅, [1], false, false, 1, ZoomMode.auto⟩ [⟨4, true, 3 / 10⟩]
      (by intro e he; simp at he; subst he; norm_num)⟩

/-- C5: after `goToPage n` (with the target element mounted, so the
programmatic scroll starts), the navigation-intent flag is set and the
current page is `n`; while that flag is set — and likewise during the
initial-load grace period — the observer callback leaves the whole state,
in particular the current page, unchanged, whatever observations arrive
(e.g. one favoring page 3 after `goToPage 5`). -/
theorem c5_navigation_suppression :
    (∀ (s : Viewer.State) (t n : ℤ) (entries : List Viewer.Obs),
      s.numPages = some t → 1 ≤ n → n ≤ t →
      (Viewer.goToPage s n true).currentPage = n ∧
      (Viewer.goToPage s n true).isScrollingToPage = true ∧
      Viewer.observerCallback (Viewer.goToPage s n true) entries =
        Viewer.goToPage s n true) ∧
    (∀ (s : Viewer.State) (entries : List Viewer.Obs),
      s.isScrollingToPage = true →
      Viewer.observerCallback s entries = s) ∧
    (∀ (s : Viewer.State) (entries : List Viewer.Obs),
      s.isInitialLoad = true →
      Viewer.observerCallback s entries = s) := by
  have hscroll : ∀ (s : Viewer.State) (entries : List Viewer.Obs),
      s.isScrollingToPage = true → Viewer.observerCallback s entries = s := by
    intro s entries hs
    cases ht : s.numPages with
    | none => simp only [Viewer.observerCallback, ht]
    | some t => simp only [Viewer.observerCallback, ht, if_pos (Or.inl hs)]
  have hinit : ∀ (s : Viewer.State) (entries : List Viewer.Obs),
      s.isInitialLoad = true → Viewer.observerCallback s entries = s := by
    intro s entries hs
    cases ht : s.numPages with
    | none => simp only [Viewer.observerCallback, ht]
    | some t => simp only [Viewer.observerCallback, ht, if_pos (Or.inr hs)]
  refine ⟨fun s t n entries ht hn1 hn2 => ?_, hscroll, hinit⟩
  have hcond : 1 ≤ n ∧ n ≤ t := ⟨hn1, hn2⟩
  refine ⟨?_, ?_, hscroll _ entries ?_⟩
  · simp [Viewer.goToPage, ht, hcond, Viewer.scrollToPage]
  · simp [Viewer.goToPage, ht, hcond, Viewer.scrollToPage]
  · simp [Viewer.goToPage, ht, hcond, Viewer.scrollToPage]

/-- Witness for C5: after `goToPage 5` on a 10-page document, an
observation fully favoring page 3 leaves the state — hence the current
page 5 — untouched. -/
theorem c5_witness :
    (Viewer.goToPage ⟨some 10, 1, ∅, [1], false, false, 1, ZoomMode.auto⟩ 5
      true).currentPage = 5 ∧
    Viewer.observerCallback
      (Viewer.goToPage ⟨some 10, 1, ∅, [1], false, false, 1, ZoomMode.auto⟩ 5 true)
      [⟨3, true, 1⟩] =
      Viewer.goToPage ⟨some 10, 1, ∅, [1], false, false, 1, ZoomMode.auto⟩ 5 true := by
  have h := (c5_navigation_suppression.1
    ⟨some 10, 1, ∅, [1], false, false, 1, ZoomMode.auto⟩ 10 5 [⟨3, true, 1⟩]
    rfl (by norm_num) (by norm_num))
  exact ⟨h.1, h.2.2⟩

/-- C10: while `totalPages` is still null (document not loaded), the hook
reports `canGoNext = true`, yet `nextPage` is a no-op — neither the stored
page nor the URL parameters change; `canGoPrevious` is `currentPage > 1`,
depending only on the stored current page, not on the load state. -/
theorem c10_unknown_total :
    (∀ s : Nav.State, s.totalPages = none →
      Nav.canGoNext s = true ∧ Nav.nextPage s = s) ∧
    (∀ s₁ s₂ : Nav.State, s₁.currentPage = s₂.currentPage →
      Nav.canGoPrevious s₁ = Nav.canGoPrevious s₂) ∧
    (∀ (s : Nav.State) (c : ℤ), s.currentPage = some c →
      (Nav.canGoPrevious s = true ↔ 1 < c)) := by
  refine ⟨fun s ht => ⟨?_, ?_⟩, fun s₁ s₂ h => ?_, fun s c hc => ?_⟩
  · simp only [Nav.canGoNext, ht]
  · simp only [Nav.nextPage, ht]
  · simp only [Nav.canGoPrevious, h]
  · simp only [Nav.canGoPrevious, hc, decide_eq_true_eq]

/-- Witness for C10 on a freshly mounted hook at page 3 with the document
still loading. -/
theorem c10_witness :
    Nav.canGoNext ⟨some 3, none, [("page", "3")]⟩ = true ∧
    Nav.nextPage ⟨some 3, none, [("page", "3")]⟩ = ⟨some 3, none, [("page", "3")]⟩ ∧
    (Nav.canGoPrevious ⟨some 3, none, [("page", "3")]⟩ = true ↔ 1 < (3 : ℤ)) := by
  have h := c10_unknown_total
  exact ⟨(h.1 ⟨some 3, none, [("page", "3")]⟩ rfl).1,
    (h.1 ⟨some 3, none, [("page", "3")]⟩ rfl).2,
    h.2.2 ⟨some 3, none, [("page", "3")]⟩ 3 rfl⟩

/-! ### Search lemmas -/

theorem jsSplitAux_length (sep : List Char) (hsep : sep ≠ []) :
    ∀ (fuel : Nat) (text : List Char), text.length < fuel →
      (jsSplitAux sep fuel text).length = countOccAux sep fuel text + 1 := by
  intro fuel
  induction fuel with
  | zero => intro text h; omega
  | succ fuel ih =>
    intro text h
    cases text with
    | nil => rfl
    | cons c rest =>
      simp only [jsSplitAux, countOccAux]
      by_cases hs : startsWithList sep (c :: rest) = true
      · rw [if_pos hs, if_pos hs]
        have hone : 1 ≤ sep.length := by
          cases sep with
          | nil => exact absurd rfl hsep
          | cons p ps => simp
        have hdrop : ((c :: rest).drop sep.length).length < fuel := by
          rw [List.length_drop]
          simp only [List.length_cons] at h ⊢
          omega
        rw [List.length_cons, ih ((c :: rest).drop sep.length) hdrop]
        omega
      · rw [if_neg hs, if_neg hs]
        have hr : rest.length < fuel := by
          simp only [List.length_cons] at h
          omega
        have hlen := ih rest hr
        cases hsp : jsSplitAux sep fuel rest with
        | nil =>
          rw [hsp] at hlen
          simp at hlen
        | cons hd tl =>
          rw [hsp] at hlen
          simp only [List.length_cons] at hlen ⊢
          omega

theorem jsSplit_length_sub_one (sep text : List Char) (hsep : sep ≠ []) :
    (jsSplit sep text).length - 1 = countOcc sep text := by
  unfold jsSplit countOcc
  rw [if_neg hsep, if_neg hsep,
    jsSplitAux_length sep hsep (text.length + 1) text (by omega)]
  omega

theorem toLowerL_ne_nil {q : String} (hq : q ≠ "") : toLowerL q ≠ [] := by
  intro hnil
  apply hq
  have hlen := congrArg List.length hnil
  simp only [toLowerL, List.length_map, List.length_nil] at hlen
  cases q with
  | mk data =>
    have hd : data = [] := List.eq_nil_of_length_eq_zero hlen
    simp [hd]

/-- C6: the reported match count is, for every query and every list of
per-page extracted texts, the sum over pages of the non-overlapping
case-insensitive substring occurrences of the query (the code computes it
via `split(query).length - 1`, the specification counts occurrences by a
left-to-right scan — the two agree); the empty query yields 0 without
error, and the spec's example (`"the"` over `"the cat the dog"` and
`"a the"`) yields 3. -/
theorem c6_search_count :
    (∀ (pages : List String) (query : String),
      handleSearch pages query = specTotalMatches pages query) ∧
    (∀ pages : List String, handleSearch pages "" = 0) ∧
    handleSearch ["the cat the dog", "a the"] "the" = 3 := by
  refine ⟨fun pages query => ?_, fun pages => rfl, by decide⟩
  unfold handleSearch specTotalMatches
  by_cases hq : query = ""
  · subst hq
    rw [if_pos rfl]
    have hz : ∀ p : String, countOcc (toLowerL "") (toLowerL p) = 0 := fun p => rfl
    simp [hz]
  · rw [if_neg hq]
    have hpt : ∀ p : String,
        (jsSplit (toLowerL query) (toLowerL p)).length - 1 =
          countOcc (toLowerL query) (toLowerL p) :=
      fun p => jsSplit_length_sub_one (toLowerL query) (toLowerL p) (toLowerL_ne_nil hq)
    simp only [hpt]

/-! ### Zoom lemmas -/

theorem zoomIn_iterate_scale (s : Viewer.State) (hs : s.scale = 1) :
    ∀ k : ℕ, (Viewer.zoomIn^[k] s).scale = min (1 + (k : ℚ) / 5) 3 := by
  intro k
  induction k with
  | zero =>
    rw [Function.iterate_zero_apply, hs]
    norm_num
  | succ k ih =>
    rw [Function.iterate_succ_apply']
    show min ((Viewer.zoomIn^[k] s).scale + 1 / 5) 3 = _
    rw [ih]
    rcases le_total (1 + (k : ℚ) / 5) 3 with h | h
    · rw [min_eq_left h]
      congr 1
      push_cast
      ring
    · rw [min_eq_right h, min_eq_right (by linarith),
        min_eq_right (by push_cast; linarith)]

/-- C7: `zoomIn`/`zoomOut` always set the mode to `custom` and step the
scale by `+0.2` (clamped above at 3.0) resp. `−0.2` (clamped below at
0.5); within `[0.5, 3.0]` the stepped scale stays in `[0.5, 3.0]`;
`resetZoom` restores `mode = auto`, `scale = 1.0` from any state; from
`scale = 1.0, mode = auto`, four `zoomIn` calls yield `mode = custom,
scale = 1.8`, and from the tenth call on the scale stays clamped at 3.0. -/
theorem c7_zoom :
    (∀ s : Viewer.State,
      (Viewer.zoomIn s).zoomMode = ZoomMode.custom ∧
      (Viewer.zoomIn s).scale = min (s.scale + 1 / 5) 3 ∧
      (Viewer.zoomOut s).zoomMode = ZoomMode.custom ∧
      (Viewer.zoomOut s).scale = max (s.scale - 1 / 5) (1 / 2) ∧
      (Viewer.resetZoom s).zoomMode = ZoomMode.auto ∧
      (Viewer.resetZoom s).scale = 1) ∧
    (∀ s : Viewer.State, 1 / 2 ≤ s.scale → s.scale ≤ 3 →
      1 / 2 ≤ (Viewer.zoomIn s).scale ∧ (Viewer.zoomIn s).scale ≤ 3 ∧
      1 / 2 ≤ (Viewer.zoomOut s).scale ∧ (Viewer.zoomOut s).scale ≤ 3) ∧
    (∀ s : Viewer.State, s.scale = 1 →
      (Viewer.zoomIn^[4] s).zoomMode = ZoomMode.custom ∧
      (Viewer.zoomIn^[4] s).scale = 9 / 5 ∧
      (∀ k : ℕ, (Viewer.zoomIn^[10 + k] s).scale = 3)) := by
  refine ⟨fun s => ⟨rfl, rfl, rfl, rfl, rfl, rfl⟩, fun s h1 h2 => ?_, fun s hs => ?_⟩
  · refine ⟨le_min (by linarith) (by norm_num), min_le_right _ _,
      le_max_right _ _, max_le (by linarith) (by norm_num)⟩
  · refine ⟨?_, ?_, fun k => ?_⟩
    · rw [show (4 : ℕ) = 3 + 1 from rfl, Function.iterate_succ_apply']
      rfl
    · rw [zoomIn_iterate_scale s hs 4]
      norm_num
    · rw [zoomIn_iterate_scale s hs (10 + k)]
      apply min_eq_right
      have hk : (0 : ℚ) ≤ (k : ℚ) := by positivity
      push_cast
      linarith

/-- Witness for C7 on the initial viewer state (`scale = 1`, `mode =
auto`). -/
theorem c7_witness :
    (1 / 2 : ℚ) ≤
      (Viewer.zoomIn ⟨some 10, 1, ∅, [1], false, false, 1, ZoomMode.auto⟩).scale ∧
    (Viewer.zoomIn^[4] ⟨some 10, 1, ∅, [1], false, false, 1, ZoomMode.auto⟩).scale =
      9 / 5 ∧
    (Viewer.zoomIn^[10 + 2] ⟨some 10, 1, ∅, [1], false, false, 1,
      ZoomMode.auto⟩).scale = 3 := by
  have h := c7_zoom
  exact ⟨(h.2.1 ⟨some 10, 1, ∅, [1], false, false, 1, ZoomMode.auto⟩ (by norm_num)
      (by norm_num)).1,
    (h.2.2 ⟨some 10, 1, ∅, [1], false, false, 1, ZoomMode.auto⟩ rfl).2.1,
    (h.2.2 ⟨some 10, 1, ∅, [1], false, false, 1, ZoomMode.auto⟩ rfl).2.2 2⟩

/-! ### Page-number invariant -/

/-- The claimed controller-state invariant: the stored page is a real
number (not `NaN`) that is at least 1, and at most `totalPages` once the
latter is known. -/
def NavInv (s : Nav.State) : Prop :=
  match s.totalPages, s.currentPage with
  | some t, some c => 1 ≤ c ∧ c ≤ t
  | none, some c => 1 ≤ c
  | _, none => False

theorem navInv_updatePage_known {s : Nav.State} {t : ℤ} (ht : s.totalPages = some t)
    (h : NavInv s) (n : ℤ) : NavInv (Nav.updatePage s n) := by
  simp only [Nav.updatePage, ht]
  by_cases hb : n < 1 ∨ n > t
  · rw [if_pos hb]
    exact h
  · rw [if_neg hb]
    simp only [NavInv]
    omega

theorem navInv_updatePage_commit {s : Nav.State} {t : ℤ} (ht : s.totalPages = some t)
    (n : ℤ) (h1 : 1 ≤ n) (h2 : n ≤ t) : NavInv (Nav.updatePage s n) := by
  simp only [Nav.updatePage, ht]
  rw [if_neg (by omega)]
  simp only [NavInv]
  omega

theorem navInv_updatePage_none {s : Nav.State} (ht : s.totalPages = none)
    (n : ℤ) (hn : 1 ≤ n) : NavInv (Nav.updatePage s n) := by
  simp only [Nav.updatePage, ht]
  simp only [NavInv]
  omega

/-- C8 counterexample: the URL-sync effect stores the parsed URL value
with no validation — stepping the browser history to `?page=999` on a
10-page document stores 999 (outside `[1, 10]`), and to `?page=abc`
stores `NaN`. -/
theorem c8_counterexample :
    (Nav.syncEffect ⟨some 5, some 10, [("page", "999")]⟩).currentPage = some 999 ∧
    ¬((999 : ℤ) ≤ 10) ∧
    (Nav.syncEffect ⟨some 5, some 10, [("page", "abc")]⟩).currentPage = none := by
  exact ⟨by decide, by norm_num, by decide⟩

/-- C8 amended: the initial URL read (when it parses to a number),
`nextPage`, `previousPage`, `goToPage` and the `totalPages` validation
effect all keep the stored page at least 1 and, once `totalPages` is
known, within `[1, totalPages]`; the URL-sync effect, however, stores the
parsed URL value unvalidated, so out-of-range or `NaN` values do enter
controller state on browser back/forward. -/
theorem c8_amended :
    (∀ (ps : List (String × String)) (n : ℤ),
      readPageParam ps = some n → NavInv (Nav.initialState ps)) ∧
    (∀ s : Nav.State, NavInv s → NavInv (Nav.nextPage s)) ∧
    (∀ s : Nav.State, NavInv s → NavInv (Nav.previousPage s)) ∧
    (∀ (s : Nav.State) (p : ℤ), NavInv s → NavInv (Nav.goToPage s p)) ∧
    (∀ (s : Nav.State) (t c : ℤ), s.totalPages = none → s.currentPage = some c →
      1 ≤ c → 1 ≤ t → NavInv (Nav.validateEffect (Nav.setTotalPages s t))) := by
  refine ⟨fun ps n hn => ?_, fun s h => ?_, fun s h => ?_, fun s p h => ?_,
    fun s t c ht hc h1 h2 => ?_⟩
  · unfold Nav.initialState
    simp only [NavInv, hn, Nav.jsMax1]
    omega
  · cases ht : s.totalPages with
    | none =>
      cases hc : s.currentPage with
      | none => simp only [Nav.nextPage, ht, hc]; exact h
      | some c => simp only [Nav.nextPage, ht, hc]; exact h
    | some t =>
      cases hc : s.currentPage with
      | none => simp only [Nav.nextPage, ht, hc]; exact h
      | some c =>
        simp only [Nav.nextPage, ht, hc]
        by_cases hlt : c < t
        · rw [if_pos hlt]
          exact navInv_updatePage_known ht h (c + 1)
        · rw [if_neg hlt]
          exact h
  · cases hc : s.currentPage with
    | none => simp only [Nav.previousPage, hc]; exact h
    | some c =>
      simp only [Nav.previousPage, hc]
      by_cases hgt : 1 < c
      · rw [if_pos hgt]
        cases ht : s.totalPages with
        | none =>
          refine navInv_updatePage_none ht (c - 1) ?_
          omega
        | some t => exact navInv_updatePage_known ht h (c - 1)
      · rw [if_neg hgt]
        exact h
  · cases ht : s.totalPages with
    | none =>
      simp only [Nav.goToPage, ht]
      refine navInv_updatePage_none ht (max 1 p) ?_
      omega
    | some t =>
      simp only [Nav.goToPage, ht]
      exact navInv_updatePage_known ht h (min (max 1 p) t)
  · have hs' : (Nav.setTotalPages s t).totalPages = some t := rfl
    have hc' : (Nav.setTotalPages s t).currentPage = some c := by
      simp [Nav.setTotalPages, hc]
    simp only [Nav.validateEffect, hs', hc']
    by_cases hgt : c > t
    · rw [if_pos hgt]
      exact navInv_updatePage_commit hs' t (by omega) (by omega)
    · rw [if_neg hgt]
      simp only [NavInv, hs', hc']
      omega

/-- Witness for C8 amended on a loaded 10-page document at page 5. -/
theorem c8_witness :
    NavInv (Nav.initialState [("page", "5")]) ∧
    NavInv (Nav.nextPage ⟨some 5, some 10, [("page", "5")]⟩) ∧
    NavInv (Nav.goToPage ⟨some 5, some 10, [("page", "5")]⟩ 42) := by
  have h := c8_amended
  exact ⟨h.1 [("page", "5")] 5 (by decide),
    h.2.1 ⟨some 5, some 10, [("page", "5")]⟩ (by exact ⟨by norm_num, by norm_num⟩),
    h.2.2.2.1 ⟨some 5, some 10, [("page", "5")]⟩ 42
      (by exact ⟨by norm_num, by norm_num⟩)⟩
